import Mathlib

/-
Verification of the experiment-assignment and conversion-measurement engine
(src/services/abTestingService.js and the A/B test HTTP routes) via a shallow
embedding in Lean.  JS numbers are modelled as rationals; Math.sqrt is an
abstract function parameter; the document stores are explicit lists threaded
through the operations.
-/

namespace ABTesting

/-- Lifecycle status of an experiment, from the abTest schema status enum. -/
inductive Status where
  | draft
  | active
  | paused
  | completed
deriving DecidableEq

/-- One experiment variant: name, opaque configuration payload and traffic
share percentage.  The configuration is opaque to the core, so it is modelled
as an uninterpreted string. -/
structure Variant where
  name : String
  config : String
  trafficPercentage : ℚ
deriving DecidableEq

/-- JS template interpolation of a possibly undefined string value: undefined
stringifies to the literal text undefined. -/
def jsToString : Option String → String
  | some s => s
  | none => ("undefined" : String)

/-- The JS expression userId || sessionId followed by template interpolation:
a falsy userId (absent or empty) falls through to sessionId. -/
def jsOrStr (userId sessionId : Option String) : String :=
  match userId with
  | some u => if u = "" then jsToString sessionId else u
  | none => jsToString sessionId

/-- UTF-16 code units of one character, as read by charCodeAt in the hash
loop of assignVariant. -/
def utf16CodeUnits (c : Char) : List Nat :=
  let n := c.toNat
  if n < 65536 then [n]
  else [55296 + (n - 65536) / 1024, 56320 + (n - 65536) % 1024]

/-- The sequence of charCodeAt values of a JS string. -/
def jsCharCodes (s : String) : List Nat :=
  List.flatten (s.data.map utf16CodeUnits)

/-- Truncation to a signed 32 bit integer, the effect of the JS bitwise
operations in the hash loop. -/
def toInt32 (x : ℤ) : ℤ :=
  (x + 2 ^ 31) % 2 ^ 32 - 2 ^ 31

/-- One step of the hash loop in assignVariant:
hash = ((hash << 5) - hash) + char, then hash = hash & hash, which truncates
to 32 bits. -/
def hashStep (hash : ℤ) (c : Nat) : ℤ :=
  toInt32 (toInt32 (hash * 32) - hash + c)

/-- The pinned 32-bit string hash computed by assignVariant. -/
def jsStringHash (s : String) : ℤ :=
  (jsCharCodes s).foldl hashStep 0

/-- Math.abs(hash) % 100: the bucket in [0,100) used for variant selection,
computed from the unit identifier userId || sessionId. -/
def bucketOf (userId sessionId : Option String) : Nat :=
  (jsStringHash (jsOrStr userId sessionId)).natAbs % 100

/-- The selection loop of assignVariant: walk the variants in declaration
order, accumulate traffic shares, and return the first variant whose
cumulative share strictly exceeds the bucket. -/
def pickVariant (bucket : ℚ) : ℚ → List Variant → Option Variant
  | _, [] => none
  | acc, v :: vs =>
    if bucket < acc + v.trafficPercentage then some v
    else pickVariant bucket (acc + v.trafficPercentage) vs

/-- assignVariant from abTestingService.js: hash the unit identifier to a
bucket in [0,100), walk the variant list accumulating traffic percentages,
return the first variant whose cumulative share exceeds the bucket, and fall
back to variants[0] (undefined, i.e. none, on an empty list) when the walk
selects nothing. -/
def assignVariant (variants : List Variant) (userId sessionId : Option String) : Option Variant :=
  match pickVariant ((bucketOf userId sessionId : ℚ)) 0 variants with
  | some v => some v
  | none => variants.head?

/-- Cumulative traffic shares: each variant paired with the sum of the shares
up to and including it, starting from the accumulator.  Used only to state
the specification-side selection rule for the refinement proof. -/
def cumShares : ℚ → List Variant → List (Variant × ℚ)
  | _, [] => []
  | acc, v :: vs => (v, acc + v.trafficPercentage) :: cumShares (acc + v.trafficPercentage) vs

/-- Specification-side selection, following the spec wording: the first
variant in declaration order whose cumulative share strictly exceeds the
bucket, else the first variant. -/
def specSelect (bucket : ℚ) (variants : List Variant) : Option Variant :=
  match (cumShares 0 variants).find? (fun p => decide (bucket < p.2)) with
  | some p => some p.1
  | none => variants.head?

/-- Targeting rules of an experiment (targetAudience subdocument). -/
structure TargetAudience where
  userSegments : List String
  categories : List String
  minOrderValue : Option ℚ
  maxOrderValue : Option ℚ
deriving DecidableEq

/-- Caller-supplied targeting attributes (userMetadata). -/
structure UserMetadata where
  segment : Option String
  category : Option String
  orderValue : Option ℚ
deriving DecidableEq

/-- Confidence interval object returned by calculateConfidence for a positive
sample size. -/
structure ConfInterval where
  rate : ℚ
  lower : ℚ
  upper : ℚ
  margin : ℚ
deriving DecidableEq

/-- Per-variant result row built by getTestResults.  The confidence field is
none exactly when calculateConfidence returned the falsy scalar 0 (sample
size zero) instead of an interval object. -/
structure VariantResult where
  variant : String
  sampleSize : Nat
  conversionRate : ℚ
  conversions : Nat
  confidence : Option ConfInterval
deriving DecidableEq

/-- The results subdocument written by completeTest. -/
structure ResultSet where
  winner : Option String
  statisticalSignificance : Bool
  variantResults : List VariantResult
  completedAt : ℤ
deriving DecidableEq

/-- An experiment document (ABTest model).  Dates are integer timestamps. -/
structure ABTest where
  id : Nat
  name : String
  status : Status
  variants : List Variant
  targetAudience : Option TargetAudience
  startDate : Option ℤ
  endDate : Option ℤ
  minSampleSize : Nat
  confidenceLevel : ℚ
  results : Option ResultSet
deriving DecidableEq

/-- A UserTestAssignment document: unit keys, experiment id, variant name. -/
structure Assignment where
  userId : Option String
  sessionId : Option String
  testId : Nat
  variant : String
deriving DecidableEq

/-- In-memory cache of active tests plus the assignment collection. -/
structure ServiceState where
  cache : List ABTest
  assignments : List Assignment
deriving DecidableEq

/-- The value getUserVariant returns to its caller on success. -/
structure VariantOut where
  variant : String
  config : Option String
deriving DecidableEq

/-- JS truthiness of a possibly absent number: absent and zero are falsy. -/
def jsTruthyQ : Option ℚ → Bool
  | none => false
  | some q => decide (q ≠ 0)

/-- JS truthiness of a possibly absent string: absent and empty are falsy. -/
def jsTruthyStr : Option String → Bool
  | none => false
  | some s => decide (s ≠ "")

/-- The fallback segment label used by matchesTargetAudience. -/
def unknownStr : String := "unknown"

/-- The empty string, named so it can appear in terms. -/
def emptyStr : String := ""

/-- userMetadata.segment with the JS falsy fallback to the unknown label. -/
def segmentOrUnknown : Option String → String
  | some s => if s = "" then unknownStr else s
  | none => unknownStr

/-- matchesTargetAudience from abTestingService.js: sequential checks over
segments, categories and the order-value range, each returning false on a
mismatch; an absent targetAudience matches everything. -/
def matchesTargetAudience : Option TargetAudience → UserMetadata → Bool
  | none, _ => true
  | some ta, meta =>
    if ta.userSegments ≠ [] ∧ ¬ ta.userSegments.contains (segmentOrUnknown meta.segment) then false
    else if ta.categories ≠ [] ∧ jsTruthyStr meta.category = true ∧
        ¬ ta.categories.contains (meta.category.getD emptyStr) then false
    else if jsTruthyQ ta.minOrderValue = true ∨ jsTruthyQ ta.maxOrderValue = true then
      if jsTruthyQ ta.minOrderValue = true ∧ meta.orderValue.getD 0 < ta.minOrderValue.getD 0 then false
      else if jsTruthyQ ta.maxOrderValue = true ∧ meta.orderValue.getD 0 > ta.maxOrderValue.getD 0 then false
      else true
    else true

/-- The cache lookup at the top of getUserVariant. -/
def findTestByName (cache : List ABTest) (testName : String) : Option ABTest :=
  cache.find? (fun t => decide (t.name = testName))

/-- The findOne filter for an existing assignment: same experiment and the
$or over the two unit keys. -/
def assignmentMatches (userId sessionId : Option String) (testId : Nat) (a : Assignment) : Bool :=
  decide (a.testId = testId) && (decide (a.userId = userId) || decide (a.sessionId = sessionId))

/-- The two compound unique indexes on UserTestAssignment: inserting a
conflicts with a stored b sharing (userId, testId) or (sessionId, testId). -/
def uniquenessViolated (a : Assignment) (store : List Assignment) : Bool :=
  store.any (fun b =>
    (decide (b.userId = a.userId) && decide (b.testId = a.testId)) ||
    (decide (b.sessionId = a.sessionId) && decide (b.testId = a.testId)))

/-- getUserVariant from abTestingService.js.  The store is threaded
explicitly; raced models assignments inserted by concurrent callers between
the sticky-lookup read and the save, so the save validates uniqueness against
st.assignments ++ raced.  Every error (including the duplicate-key rejection
of the save) is caught and surfaces as the no-assignment result none. -/
def getUserVariant (testName : String) (userId sessionId : Option String)
    (meta : UserMetadata) (st : ServiceState) (raced : List Assignment) :
    Option VariantOut × ServiceState :=
  match findTestByName st.cache testName with
  | none => (none, st)
  | some test =>
    if test.status ≠ Status.active then (none, st)
    else
      match st.assignments.find? (assignmentMatches userId sessionId test.id) with
      | some a =>
        (some { variant := a.variant,
                config := (test.variants.find? (fun v => decide (v.name = a.variant))).map Variant.config },
         st)
      | none =>
        if matchesTargetAudience test.targetAudience meta = false then (none, st)
        else
          match assignVariant test.variants userId sessionId with
          | none => (none, st)
          | some v =>
            if uniquenessViolated ⟨userId, sessionId, test.id, v.name⟩ (st.assignments ++ raced) then
              (none, { st with assignments := st.assignments ++ raced })
            else
              (some { variant := v.name, config := some v.config },
               { st with assignments := (st.assignments ++ raced) ++ [⟨userId, sessionId, test.id, v.name⟩] })

/-- The z-score lookup of calculateConfidence: 1.96 for the 0.95 level and
2.58 for every other configured level. -/
def confZ (confidenceLevel : ℚ) : ℚ :=
  if confidenceLevel = 95 / 100 then 196 / 100 else 258 / 100

/-- The conversion rate p of calculateConfidence. -/
def confRate (sampleSize conversions : Nat) : ℚ :=
  (conversions : ℚ) / (sampleSize : ℚ)

/-- The margin z * sqrt(p(1-p)/n) of calculateConfidence. -/
def confMargin (sqrtFn : ℚ → ℚ) (sampleSize conversions : Nat) (confidenceLevel : ℚ) : ℚ :=
  confZ confidenceLevel *
    sqrtFn ((confRate sampleSize conversions * (1 - confRate sampleSize conversions)) /
      (sampleSize : ℚ))

/-- calculateConfidence from abTestingService.js: for sample size zero the
source returns the falsy number 0, modelled as none; otherwise a normal
approximation interval with the bounds clamped into [0, 1] by max and min.
Math.sqrt is an abstract parameter. -/
def calculateConfidence (sqrtFn : ℚ → ℚ) (sampleSize conversions : Nat)
    (confidenceLevel : ℚ) : Option ConfInterval :=
  if sampleSize = 0 then none
  else
    some { rate := confRate sampleSize conversions,
           lower := max 0 (confRate sampleSize conversions -
             confMargin sqrtFn sampleSize conversions confidenceLevel),
           upper := min 1 (confRate sampleSize conversions +
             confMargin sqrtFn sampleSize conversions confidenceLevel),
           margin := confMargin sqrtFn sampleSize conversions confidenceLevel }

/-- determineWinner from abTestingService.js: null on an empty list, else a
reduce keeping the strictly larger conversion rate (earlier entry wins a
tie). -/
def determineWinner : List VariantResult → Option VariantResult
  | [] => none
  | x :: xs => some (xs.foldl (fun w c => if c.conversionRate > w.conversionRate then c else w) x)

/-- One insertion step of the stable descending sort by conversion rate used
by checkStatisticalSignificance (the JS comparator b.rate - a.rate under a
stable Array.sort). -/
def insertByRate (x : VariantResult) : List VariantResult → List VariantResult
  | [] => [x]
  | y :: ys =>
    if x.conversionRate ≥ y.conversionRate then x :: y :: ys
    else y :: insertByRate x ys

/-- Stable sort of variant results by descending conversion rate. -/
def sortByRateDesc : List VariantResult → List VariantResult
  | [] => []
  | x :: xs => insertByRate x (sortByRateDesc xs)

/-- checkStatisticalSignificance from abTestingService.js: false with fewer
than two results; otherwise sort by descending conversion rate, require both
top entries to carry a truthy confidence interval, and compare the best
lower bound against the second-best upper bound. -/
def checkStatisticalSignificance (variantResults : List VariantResult)
    (confidenceLevel : ℚ) : Bool :=
  if variantResults.length < 2 then false
  else
    match sortByRateDesc variantResults with
    | best :: second :: _ =>
      match best.confidence, second.confidence with
      | some cb, some cs => decide (cb.lower > cs.upper)
      | _, _ => false
    | _ => false

/-- The reduce summing sample sizes at the top of shouldCompleteTest. -/
def totalSamples (variantResults : List VariantResult) : Nat :=
  variantResults.foldl (fun sum v => sum + v.sampleSize) 0

/-- The end-date check of shouldCompleteTest: a set end date strictly in the
past of now. -/
def endDatePassed (now : ℤ) (test : ABTest) : Bool :=
  match test.endDate with
  | some d => decide (d < now)
  | none => false

/-- shouldCompleteTest from abTestingService.js, with the current time as an
explicit parameter.  The minimum-sample-size check runs first and returns
false before the end date is ever consulted. -/
def shouldCompleteTest (now : ℤ) (test : ABTest) (variantResults : List VariantResult) : Bool :=
  if totalSamples variantResults < test.minSampleSize then false
  else if endDatePassed now test then true
  else checkStatisticalSignificance variantResults test.confidenceLevel

/-- Errors thrown by the service operations modelled here. -/
inductive SvcError where
  | typeError
  | testNotFound
deriving DecidableEq

/-- startTest from abTestingService.js: an unconditional findByIdAndUpdate to
status active with a fresh start date; the only failure is the TypeError on
reading a field of null when the id does not exist.  There is no status
guard. -/
def startTest (now : ℤ) (testId : Nat) (tests : List ABTest) :
    Except SvcError (ABTest × List ABTest) :=
  match tests.find? (fun t => decide (t.id = testId)) with
  | none => Except.error SvcError.typeError
  | some t =>
    Except.ok ({ t with status := Status.active, startDate := some now },
      tests.map (fun x =>
        if x.id = testId then { x with status := Status.active, startDate := some now } else x))

/-- The reduce summing traffic percentages at the top of createTest. -/
def totalTraffic (variants : List Variant) : ℚ :=
  variants.foldl (fun sum v => sum + v.trafficPercentage) 0

/-- The per-field schema validation mongoose runs on variants: each traffic
percentage must lie in [0, 100].  There is no constraint on the sum. -/
def variantsValid (variants : List Variant) : Bool :=
  decide (∀ v ∈ variants, 0 ≤ v.trafficPercentage ∧ v.trafficPercentage ≤ 100)

/-- Errors raised by createTest. -/
inductive CreateError where
  | trafficSumInvalid
  | schemaValidation
deriving DecidableEq

/-- createTest from abTestingService.js: rejects a configuration whose
traffic shares differ from 100 by more than 0.01, then saves the document
(mongoose schema validation applies). -/
def createTest (testConfig : ABTest) : Except CreateError ABTest :=
  if 1 / 100 < |totalTraffic testConfig.variants - 100| then
    Except.error CreateError.trafficSumInvalid
  else if variantsValid testConfig.variants = false then
    Except.error CreateError.schemaValidation
  else Except.ok testConfig

/-- HTTP outcome of the PUT update route. -/
inductive RouteResponse where
  | ok (test : ABTest) (tests : List ABTest)
  | badRequest
  | notFound
deriving DecidableEq

/-- The store after findByIdAndUpdate replaces the variants of one test. -/
def applyVariantsPatch (testId : Nat) (patch : List Variant) (tests : List ABTest) :
    List ABTest :=
  tests.map (fun x => if x.id = testId then { x with variants := patch } else x)

/-- The PUT /:testId route of the A/B test router, for a patch replacing the
variants array: it blocks updates of active tests and relies only on
runValidators (per-field checks) — the traffic-share sum is not re-checked
anywhere on this path. -/
def updateTest (testId : Nat) (patch : List Variant) (tests : List ABTest) : RouteResponse :=
  match tests.find? (fun t => decide (t.id = testId)) with
  | some t =>
    if t.status = Status.active then RouteResponse.badRequest
    else if variantsValid patch = false then RouteResponse.badRequest
    else RouteResponse.ok { t with variants := patch } (applyVariantsPatch testId patch tests)
  | none =>
    if variantsValid patch = false then RouteResponse.badRequest
    else RouteResponse.notFound

/-- The aggregate getTestResults builds per variant: assignment count,
conversion count (analytics events tagged with the variant name), conversion
rate and the confidence value. -/
def buildVariantResults (sqrtFn : ℚ → ℚ) (test : ABTest) (assignments : List Assignment)
    (conversionData : List (Option String)) : List VariantResult :=
  test.variants.map (fun v =>
    let assignmentCount := assignments.countP (fun a =>
      decide (a.testId = test.id) && decide (a.variant = v.name))
    let conversions := conversionData.countP (fun c => decide (c = some v.name))
    { variant := v.name,
      sampleSize := assignmentCount,
      conversionRate := if 0 < assignmentCount then (conversions : ℚ) / (assignmentCount : ℚ) else 0,
      conversions := conversions,
      confidence := calculateConfidence sqrtFn assignmentCount conversions test.confidenceLevel })

/-- The value getTestResults returns. -/
structure TestResultsBundle where
  variantResults : List VariantResult
  winner : Option VariantResult
  statisticalSignificance : Bool
  isComplete : Bool
deriving DecidableEq

/-- getTestResults from abTestingService.js.  The winner is computed before
checkStatisticalSignificance runs; the in-place Array.sort inside the
significance check reorders the returned variantResults whenever there are
at least two rows (it returns early before sorting otherwise). -/
def getTestResults (sqrtFn : ℚ → ℚ) (now : ℤ) (test : ABTest) (assignments : List Assignment)
    (conversionData : List (Option String)) : TestResultsBundle :=
  let variantResults := buildVariantResults sqrtFn test assignments conversionData
  let winner := determineWinner variantResults
  let sig := checkStatisticalSignificance variantResults test.confidenceLevel
  let sortedResults := if variantResults.length < 2 then variantResults else sortByRateDesc variantResults
  { variantResults := sortedResults,
    winner := winner,
    statisticalSignificance := sig,
    isComplete := decide (test.status = Status.completed) || shouldCompleteTest now test sortedResults }

/-- The single update completeTest issues: the new status together with the
full results subdocument, in one write. -/
structure WriteOp where
  status : Status
  results : ResultSet
deriving DecidableEq

/-- Effect of one findByIdAndUpdate write on the experiment document. -/
def applyWrite (t : ABTest) (op : WriteOp) : ABTest :=
  { t with status := op.status, results := some op.results }

/-- completeTest from abTestingService.js: compute the full result set via
getTestResults, then issue one findByIdAndUpdate that sets status completed
together with every results field.  The emitted write list makes the
single-write shape explicit.  The cache refresh that follows reads but never
writes experiment documents. -/
def completeTest (sqrtFn : ℚ → ℚ) (now : ℤ) (testId : Nat) (tests : List ABTest)
    (assignments : List Assignment) (conversionData : List (Option String)) :
    Except SvcError (List WriteOp × ABTest) :=
  match tests.find? (fun t => decide (t.id = testId)) with
  | none => Except.error SvcError.testNotFound
  | some test =>
    let r := getTestResults sqrtFn now test assignments conversionData
    let op : WriteOp :=
      { status := Status.completed,
        results := { winner := r.winner.map VariantResult.variant,
                     statisticalSignificance := r.statisticalSignificance,
                     variantResults := r.variantResults,
                     completedAt := now } }
    Except.ok ([op], applyWrite test op)

/-- An analytics event as emitted by trackConversion. -/
structure AnalyticsEvent where
  eventType : String
  userId : Option String
  sessionId : Option String
  abTestName : Option String
  abTestVariant : Option String
deriving DecidableEq

/-- The conversion event type used by trackConversion. -/
def addonPurchase : String := "addon_purchase"

/-- The ids of every experiment with the given name (the distinct query in
trackConversion). -/
def testIdsNamed (tests : List ABTest) (testName : String) : List Nat :=
  (tests.filter (fun t => decide (t.name = testName))).map ABTest.id

/-- trackConversion from abTestingService.js: look up the unit assignment
for the named experiment; when found, emit one conversion event tagged with
the assigned variant, otherwise do nothing.  The returned list is the batch
of emitted analytics events. -/
def trackConversion (testName : String) (userId sessionId : Option String)
    (tests : List ABTest) (assignments : List Assignment) : List AnalyticsEvent :=
  match assignments.find? (fun a =>
      (testIdsNamed tests testName).contains a.testId &&
      (decide (a.userId = userId) || decide (a.sessionId = sessionId))) with
  | some a =>
    [{ eventType := addonPurchase, userId := userId, sessionId := sessionId,
       abTestName := some testName, abTestVariant := some a.variant }]
  | none => []

/-- An always-zero stand-in for Math.sqrt used in concrete witnesses (any
nonnegative function works for the clamping claims). -/
def zeroSqrt : ℚ → ℚ := fun _ => 0

/-- A concrete two-variant list used to instantiate theorems. -/
def witnessVariants : List Variant :=
  [{ name := "A", config := "cfgA", trafficPercentage := 60 },
   { name := "B", config := "cfgB", trafficPercentage := 40 }]

/-- Concrete fixtures for the assignment claims. -/
def testNameC2 : String := "t2"

def uidC2 : String := "u1"

def variantA : Variant := { name := "A", config := "cfgA", trafficPercentage := 50 }

def variantB : Variant := { name := "B", config := "cfgB", trafficPercentage := 50 }

def testC2 : ABTest :=
  { id := 1, name := testNameC2, status := Status.active,
    variants := [variantA, variantB], targetAudience := none,
    startDate := none, endDate := none, minSampleSize := 1000,
    confidenceLevel := 1, results := none }

def stateC2 : ServiceState := { cache := [testC2], assignments := [] }

/-- The assignment the concurrent winner managed to insert first. -/
def winnerAssignment : Assignment :=
  { userId := some uidC2, sessionId := none, testId := 1, variant := "A" }

def racedC2 : List Assignment := [winnerAssignment]

def metaEmpty : UserMetadata := { segment := none, category := none, orderValue := none }

def metaAlt : UserMetadata :=
  { segment := some unknownStr, category := none, orderValue := some 5 }

def vOutB : VariantOut := { variant := "B", config := some "cfgB" }

/-- The store state after the first successful call of the sticky scenario. -/
def st1C5 : ServiceState :=
  { cache := [testC2],
    assignments := [{ userId := some uidC2, sessionId := none, testId := 1, variant := "B" }] }

/-- Fixture for the auto-complete claim: end date already passed, large
minimum sample size. -/
def testC1 : ABTest :=
  { id := 3, name := "t1", status := Status.active,
    variants := [variantA, variantB], targetAudience := none,
    startDate := none, endDate := some 0, minSampleSize := 1000,
    confidenceLevel := 1, results := none }

/-- Same experiment with a minimum sample size that the results meet. -/
def testC1b : ABTest :=
  { id := 3, name := "t1", status := Status.active,
    variants := [variantA, variantB], targetAudience := none,
    startDate := none, endDate := some 0, minSampleSize := 5,
    confidenceLevel := 1, results := none }

/-- Ten assignments total: below the 1000 minimum sample size. -/
def resultsC1 : List VariantResult :=
  [{ variant := "A", sampleSize := 10, conversionRate := 0, conversions := 0, confidence := none }]

/-- Fixture for the update-route claim: a draft experiment with shares
summing to 100. -/
def testC3 : ABTest :=
  { id := 7, name := "t3", status := Status.draft,
    variants := [variantA, variantB], targetAudience := none,
    startDate := none, endDate := none, minSampleSize := 100,
    confidenceLevel := 1, results := none }

/-- A patch whose traffic shares sum to 99, with each share inside [0,100]. -/
def patchC3 : List Variant :=
  [{ name := "A", config := "cfgA", trafficPercentage := 49 },
   { name := "B", config := "cfgB", trafficPercentage := 50 }]

/-- The experiment after the sum-99 patch is accepted. -/
def testC3patched : ABTest := { testC3 with variants := patchC3 }

/-- Fixture for the start claim: an already completed experiment. -/
def testC4 : ABTest :=
  { id := 4, name := "t4", status := Status.completed,
    variants := [variantA, variantB], targetAudience := none,
    startDate := none, endDate := none, minSampleSize := 1000,
    confidenceLevel := 1, results := none }

/-- The completed experiment after startTest runs on it. -/
def testC4started : ABTest := { testC4 with status := Status.active, startDate := some 5 }

/-- A unit with no assignment for the conversion-tracking claim. -/
def uidC9 : String := "u9"

def sidC9 : String := "s9"

/- ------------------------------------------------------------------ -/
/- Theorems -/
/- ------------------------------------------------------------------ -/

theorem pickVariant_eq_find (bucket : ℚ) :
    ∀ (vs : List Variant) (acc : ℚ),
      pickVariant bucket acc vs =
        ((cumShares acc vs).find? (fun p => decide (bucket < p.2))).map Prod.fst := by
  intro vs
  induction vs with
  | nil => intro acc; rfl
  | cons v vs ih =>
    intro acc
    by_cases h : bucket < acc + v.trafficPercentage
    · simp [pickVariant, cumShares, List.find?, h]
    · simp [pickVariant, cumShares, List.find?, h, ih]

/-- C6: for a non-empty variant list, assignVariant is a deterministic
function of the unit identifier (userId || sessionId) and the variant list:
the bucket is the absolute value of the pinned 32-bit string hash reduced
modulo 100 (hence below 100), the selected variant is the first one in
declaration order whose cumulative traffic share strictly exceeds the bucket,
and when no cumulative share exceeds the bucket the first variant is
returned (so on a non-empty list the result is always some variant). -/
theorem assignVariant_deterministic_bucket_walk (variants : List Variant)
    (userId sessionId : Option String) (hne : variants ≠ []) :
    bucketOf userId sessionId < 100 ∧
    assignVariant variants userId sessionId = specSelect ((bucketOf userId sessionId : ℚ)) variants ∧
    (∃ v, assignVariant variants userId sessionId = some v) ∧
    (∀ u2 s2, jsOrStr u2 s2 = jsOrStr userId sessionId →
      assignVariant variants u2 s2 = assignVariant variants userId sessionId) := by
  refine ⟨Nat.mod_lt _ (by norm_num), ?_, ?_, ?_⟩
  · unfold assignVariant specSelect
    rw [pickVariant_eq_find]
    cases (cumShares 0 variants).find? (fun p => decide ((bucketOf userId sessionId : ℚ) < p.2)) with
    | none => rfl
    | some p => rfl
  · unfold assignVariant
    cases hp : pickVariant ((bucketOf userId sessionId : ℚ)) 0 variants with
    | some v => exact ⟨v, rfl⟩
    | none =>
      cases variants with
      | nil => exact absurd rfl hne
      | cons v vs => exact ⟨v, rfl⟩
  · intro u2 s2 h
    unfold assignVariant bucketOf
    rw [h]

/-- Witness for C6: the theorem applied to a concrete variant list and unit. -/
theorem assignVariant_deterministic_bucket_walk_witness :
    witnessVariants ≠ [] ∧
    (bucketOf (some ("user-42")) none < 100 ∧
      assignVariant witnessVariants (some ("user-42")) none =
        specSelect ((bucketOf (some ("user-42")) none : ℚ)) witnessVariants ∧
      (∃ v, assignVariant witnessVariants (some ("user-42")) none = some v) ∧
      (∀ u2 s2, jsOrStr u2 s2 = jsOrStr (some ("user-42")) none →
        assignVariant witnessVariants u2 s2 =
          assignVariant witnessVariants (some ("user-42")) none)) :=
  ⟨by decide,
   assignVariant_deterministic_bucket_walk witnessVariants (some ("user-42")) none (by decide)⟩

theorem find?_append_none {α : Type} (p : α → Bool) :
    ∀ (l1 l2 : List α), l1.find? p = none → (l1 ++ l2).find? p = l2.find? p := by
  intro l1
  induction l1 with
  | nil => intro l2 _; rfl
  | cons a l1 ih =>
    intro l2 h
    cases hpa : p a with
    | true => simp [List.find?, hpa] at h
    | false =>
      simp only [List.cons_append, List.find?, hpa]
      exact ih l2 (by simpa [List.find?, hpa] using h)

/-- C5: sticky assignment.  If a call to getUserVariant (with no concurrent
racer) returns a variant, then any later call for the same unit and
experiment, with arbitrary (possibly different) targeting attributes, returns
the same variant and leaves the store untouched: the existing assignment is
found and returned before targeting or hashing runs. -/
theorem getUserVariant_sticky (testName : String) (userId sessionId : Option String)
    (meta1 meta2 : UserMetadata) (st st1 : ServiceState) (r1 : VariantOut)
    (h1 : getUserVariant testName userId sessionId meta1 st [] = (some r1, st1)) :
    ∃ r2, getUserVariant testName userId sessionId meta2 st1 [] = (some r2, st1) ∧
      r2.variant = r1.variant := by
  unfold getUserVariant at h1
  cases hfind : findTestByName st.cache testName with
  | none => simp only [hfind] at h1; simp at h1
  | some test =>
    simp only [hfind] at h1
    by_cases hact : test.status = Status.active
    · rw [if_neg (by simp [hact])] at h1
      cases hassign : st.assignments.find? (assignmentMatches userId sessionId test.id) with
      | some a =>
        simp only [hassign] at h1
        simp only [Prod.mk.injEq, Option.some.injEq] at h1
        obtain ⟨hr1, hst1⟩ := h1
        subst hst1
        unfold getUserVariant
        simp only [hfind]
        rw [if_neg (by simp [hact])]
        simp only [hassign]
        exact ⟨_, rfl, by rw [← hr1]⟩
      | none =>
        simp only [hassign] at h1
        by_cases htgt : matchesTargetAudience test.targetAudience meta1 = false
        · rw [if_pos htgt] at h1; simp at h1
        · rw [if_neg htgt] at h1
          cases hav : assignVariant test.variants userId sessionId with
          | none => simp only [hav] at h1; simp at h1
          | some v =>
            simp only [hav] at h1
            by_cases huniq :
                uniquenessViolated ⟨userId, sessionId, test.id, v.name⟩ (st.assignments ++ []) = true
            · rw [if_pos huniq] at h1; simp at h1
            · rw [if_neg huniq] at h1
              simp only [Prod.mk.injEq, Option.some.injEq] at h1
              obtain ⟨hr1, hst1⟩ := h1
              subst hst1
              have hemp : (st.assignments ++ []).find?
                  (assignmentMatches userId sessionId test.id) = none :=
                (find?_append_none _ _ _ hassign).trans rfl
              unfold getUserVariant
              simp only [hfind]
              rw [if_neg (by simp [hact])]
              rw [find?_append_none _ _ _ hemp]
              simp only [List.find?, assignmentMatches, eq_self_iff_true, decide_True,
                Bool.true_and, Bool.true_or, Bool.or_true, Bool.and_true, Bool.and_self]
              exact ⟨_, rfl, by rw [← hr1]⟩
    · rw [if_pos (by simp [hact])] at h1; simp at h1

/-- Evaluation helper: the success path of getUserVariant, given each branch
condition as a hypothesis. -/
theorem getUserVariant_new_assignment_aux (testName : String)
    (userId sessionId : Option String) (meta : UserMetadata)
    (st : ServiceState) (raced : List Assignment) (test : ABTest) (v : Variant)
    (hfind : findTestByName st.cache testName = some test)
    (hact : test.status = Status.active)
    (hassign : st.assignments.find? (assignmentMatches userId sessionId test.id) = none)
    (htgt : matchesTargetAudience test.targetAudience meta = true)
    (hav : assignVariant test.variants userId sessionId = some v)
    (huniq : uniquenessViolated ⟨userId, sessionId, test.id, v.name⟩
      (st.assignments ++ raced) = false) :
    getUserVariant testName userId sessionId meta st raced =
      (some { variant := v.name, config := some v.config },
       { st with assignments := (st.assignments ++ raced) ++ [⟨userId, sessionId, test.id, v.name⟩] }) := by
  unfold getUserVariant
  simp only [hfind]
  rw [if_neg (by simp [hact])]
  simp only [hassign]
  rw [if_neg (by simp [htgt])]
  simp only [hav]
  rw [if_neg (by simp [huniq])]

/-- Evaluation helper: the duplicate-insert failure path of getUserVariant,
given each branch condition as a hypothesis. -/
theorem getUserVariant_uniq_fail_aux (testName : String)
    (userId sessionId : Option String) (meta : UserMetadata)
    (st : ServiceState) (raced : List Assignment) (test : ABTest) (v : Variant)
    (hfind : findTestByName st.cache testName = some test)
    (hact : test.status = Status.active)
    (hassign : st.assignments.find? (assignmentMatches userId sessionId test.id) = none)
    (htgt : matchesTargetAudience test.targetAudience meta = true)
    (hav : assignVariant test.variants userId sessionId = some v)
    (huniq : uniquenessViolated ⟨userId, sessionId, test.id, v.name⟩
      (st.assignments ++ raced) = true) :
    getUserVariant testName userId sessionId meta st raced =
      (none, { st with assignments := st.assignments ++ raced }) := by
  unfold getUserVariant
  simp only [hfind]
  rw [if_neg (by simp [hact])]
  simp only [hassign]
  rw [if_neg (by simp [htgt])]
  simp only [hav]
  rw [if_pos huniq]

/-- Evaluation helper: the bucket of unit u1. -/
theorem bucketOf_uidC2 : bucketOf (some uidC2) none = 76 := by decide

/-- Evaluation helper: unit u1 lands on variant B of the fixture test. -/
theorem assignVariant_testC2_eval :
    assignVariant testC2.variants (some uidC2) none = some variantB := by
  unfold assignVariant
  rw [bucketOf_uidC2]
  norm_num [pickVariant, testC2, variantA, variantB]

/-- Evaluation helper: the first call of the sticky scenario assigns variant
B and persists the assignment. -/
theorem getUserVariant_first_call_eval :
    getUserVariant testNameC2 (some uidC2) none metaEmpty stateC2 [] = (some vOutB, st1C5) :=
  (getUserVariant_new_assignment_aux testNameC2 (some uidC2) none metaEmpty stateC2 []
    testC2 variantB rfl rfl rfl rfl assignVariant_testC2_eval rfl).trans rfl

/-- Witness for C5: a first call on an empty assignment store returns variant
B and persists it; the theorem then yields the same variant for a second call
with different targeting attributes. -/
theorem getUserVariant_sticky_witness :
    getUserVariant testNameC2 (some uidC2) none metaEmpty stateC2 [] = (some vOutB, st1C5) ∧
    (∃ r2, getUserVariant testNameC2 (some uidC2) none metaAlt st1C5 [] = (some r2, st1C5) ∧
      r2.variant = vOutB.variant) :=
  ⟨getUserVariant_first_call_eval,
   getUserVariant_sticky testNameC2 (some uidC2) none metaEmpty metaAlt stateC2 st1C5 vOutB
     getUserVariant_first_call_eval⟩

/-- C2 counterexample: unit u1 races against a winner that already inserted
variant A for experiment 1.  The claim says the losing call re-reads and
returns the winner stored variant and configuration; in the code the
duplicate-insert rejection is swallowed by the catch-all handler and the
caller receives none, not the winner variant. -/
theorem getUserVariant_race_loser_returns_none :
    (getUserVariant testNameC2 (some uidC2) none metaEmpty stateC2 racedC2).1 = none ∧
    (getUserVariant testNameC2 (some uidC2) none metaEmpty stateC2 racedC2).1 ≠
      some { variant := variantA.name, config := some variantA.config } := by
  have h : getUserVariant testNameC2 (some uidC2) none metaEmpty stateC2 racedC2 =
      (none, { stateC2 with assignments := stateC2.assignments ++ racedC2 }) :=
    getUserVariant_uniq_fail_aux testNameC2 (some uidC2) none metaEmpty stateC2 racedC2
      testC2 variantB rfl rfl rfl rfl assignVariant_testC2_eval rfl
  rw [h]
  exact ⟨rfl, by simp⟩

/-- C2 amended: when the sticky lookup finds nothing, targeting passes, a
variant is selected, and the insert collides with a concurrently inserted
assignment on the uniqueness constraint, getUserVariant catches the rejection
and returns the no-assignment result none (no error is surfaced to the
caller); it does not re-read the winner assignment. -/
theorem getUserVariant_duplicate_insert_no_error (testName : String)
    (userId sessionId : Option String) (meta : UserMetadata)
    (st : ServiceState) (raced : List Assignment) (test : ABTest) (v : Variant)
    (hfind : findTestByName st.cache testName = some test)
    (hact : test.status = Status.active)
    (hassign : st.assignments.find? (assignmentMatches userId sessionId test.id) = none)
    (htgt : matchesTargetAudience test.targetAudience meta = true)
    (hav : assignVariant test.variants userId sessionId = some v)
    (huniq : uniquenessViolated ⟨userId, sessionId, test.id, v.name⟩
      (st.assignments ++ raced) = true) :
    getUserVariant testName userId sessionId meta st raced =
      (none, { st with assignments := st.assignments ++ raced }) :=
  getUserVariant_uniq_fail_aux testName userId sessionId meta st raced test v
    hfind hact hassign htgt hav huniq

/-- Witness for the amended C2 theorem at the concrete race fixture. -/
theorem getUserVariant_duplicate_insert_no_error_witness :
    (findTestByName stateC2.cache testNameC2 = some testC2 ∧
      testC2.status = Status.active ∧
      stateC2.assignments.find? (assignmentMatches (some uidC2) none testC2.id) = none ∧
      matchesTargetAudience testC2.targetAudience metaEmpty = true ∧
      assignVariant testC2.variants (some uidC2) none = some variantB ∧
      uniquenessViolated ⟨some uidC2, none, testC2.id, variantB.name⟩
        (stateC2.assignments ++ racedC2) = true) ∧
    getUserVariant testNameC2 (some uidC2) none metaEmpty stateC2 racedC2 =
      (none, { stateC2 with assignments := stateC2.assignments ++ racedC2 }) :=
  ⟨⟨rfl, rfl, rfl, rfl, assignVariant_testC2_eval, rfl⟩,
   getUserVariant_duplicate_insert_no_error testNameC2 (some uidC2) none metaEmpty stateC2
     racedC2 testC2 variantB rfl rfl rfl rfl assignVariant_testC2_eval rfl⟩

/-- C1 counterexample: the end date of the fixture experiment has passed at
time 1, the ten recorded assignments are below the minimum sample size of
1000, yet shouldCompleteTest returns false: the sample-size guard runs first
and wins, so a passed end date alone is not sufficient as the claim states. -/
theorem shouldCompleteTest_endDate_not_sufficient :
    endDatePassed 1 testC1 = true ∧
    totalSamples resultsC1 < testC1.minSampleSize ∧
    shouldCompleteTest 1 testC1 resultsC1 = false :=
  ⟨rfl, by decide, rfl⟩

/-- C1 amended: shouldCompleteTest returns true when the end date has passed,
provided the total sample size across variants has reached the experiment
minimum; below the minimum it returns false no matter the end date (see the
counterexample). -/
theorem shouldCompleteTest_endDate_after_minSample (now : ℤ) (test : ABTest)
    (variantResults : List VariantResult)
    (hmin : test.minSampleSize ≤ totalSamples variantResults)
    (hend : endDatePassed now test = true) :
    shouldCompleteTest now test variantResults = true := by
  unfold shouldCompleteTest
  rw [if_neg (Nat.not_lt.mpr hmin)]
  rw [if_pos hend]

/-- Witness for the amended C1 theorem: minimum sample size 5, ten
assignments, end date passed. -/
theorem shouldCompleteTest_endDate_after_minSample_witness :
    (testC1b.minSampleSize ≤ totalSamples resultsC1 ∧ endDatePassed 1 testC1b = true) ∧
    shouldCompleteTest 1 testC1b resultsC1 = true :=
  ⟨⟨by decide, rfl⟩,
   shouldCompleteTest_endDate_after_minSample 1 testC1b resultsC1 (by decide) rfl⟩

/-- C4 counterexample: startTest on a completed experiment does not fail; it
returns the experiment transitioned to active with a fresh start date, so
the status guard the claim describes does not exist. -/
theorem startTest_completed_transitions_to_active :
    testC4.status = Status.completed ∧
    startTest 5 4 [testC4] = Except.ok (testC4started, [testC4started]) ∧
    testC4started.status = Status.active :=
  ⟨rfl, rfl, rfl⟩

/-- C4 amended: startTest unconditionally transitions any experiment found
by id — whatever its current status, including completed — to active with
the start timestamp set; it fails only when no experiment with the id
exists. -/
theorem startTest_unconditional_activation (now : ℤ) (testId : Nat) (tests : List ABTest)
    (t : ABTest) (hfind : tests.find? (fun x => decide (x.id = testId)) = some t) :
    startTest now testId tests =
      Except.ok ({ t with status := Status.active, startDate := some now },
        tests.map (fun x =>
          if x.id = testId then { x with status := Status.active, startDate := some now } else x)) := by
  unfold startTest
  simp only [hfind]

/-- Witness for the amended C4 theorem at the completed fixture. -/
theorem startTest_unconditional_activation_witness :
    ([testC4].find? (fun x => decide (x.id = 4)) = some testC4) ∧
    startTest 5 4 [testC4] =
      Except.ok ({ testC4 with status := Status.active, startDate := some 5 },
        [testC4].map (fun x =>
          if x.id = 4 then { x with status := Status.active, startDate := some 5 } else x)) :=
  ⟨rfl, startTest_unconditional_activation 5 4 [testC4] testC4 rfl⟩

/-- C3 counterexample: the update route accepts a patch whose traffic shares
sum to 99 on a draft experiment (every share is inside [0,100], so the
per-field validators pass and no sum check exists on the update path), so a
successful update does not preserve the sum-to-100 invariant. -/
theorem updateTest_accepts_sum_99 :
    updateTest 7 patchC3 [testC3] = RouteResponse.ok testC3patched [testC3patched] ∧
    totalTraffic patchC3 = 99 ∧
    testC3.status ≠ Status.active := by
  refine ⟨?_, ?_, by decide⟩
  · rfl
  · norm_num [totalTraffic, patchC3, List.foldl]

/-- C3 amended: the sum-to-100 invariant (within tolerance 0.01) is enforced
at creation only: any configuration createTest accepts has shares summing to
100 within 0.01 (so sums of 99 or 101 are rejected there), while the update
route does not re-validate the sum (see the counterexample). -/
theorem createTest_traffic_sum_invariant (testConfig t : ABTest)
    (hok : createTest testConfig = Except.ok t) :
    |totalTraffic t.variants - 100| ≤ 1 / 100 := by
  unfold createTest at hok
  by_cases h1 : 1 / 100 < |totalTraffic testConfig.variants - 100|
  · rw [if_pos h1] at hok; simp at hok
  · rw [if_neg h1] at hok
    by_cases h2 : variantsValid testConfig.variants = false
    · rw [if_pos h2] at hok; simp at hok
    · rw [if_neg h2] at hok
      simp only [Except.ok.injEq] at hok
      subst hok
      exact le_of_not_lt h1

/-- Witness for the amended C3 theorem: the fixture configuration with
shares 50 and 50 is accepted and satisfies the bound. -/
theorem createTest_traffic_sum_invariant_witness :
    createTest testC3 = Except.ok testC3 ∧
    |totalTraffic testC3.variants - 100| ≤ 1 / 100 := by
  have h : createTest testC3 = Except.ok testC3 := by
    unfold createTest
    rw [if_neg ?hsum, if_neg ?hvalid]
    case hsum => norm_num [totalTraffic, testC3, variantA, variantB, List.foldl]
    case hvalid => norm_num [variantsValid, testC3, variantA, variantB]
  exact ⟨h, createTest_traffic_sum_invariant testC3 testC3 h⟩

theorem insertByRate_perm (x : VariantResult) :
    ∀ l : List VariantResult, (insertByRate x l).Perm (x :: l) := by
  intro l
  induction l with
  | nil => exact List.Perm.refl _
  | cons y ys ih =>
    by_cases h : x.conversionRate ≥ y.conversionRate
    · simp only [insertByRate, if_pos h]
      exact List.Perm.refl _
    · simp only [insertByRate, if_neg h]
      exact (ih.cons y).trans (List.Perm.swap x y ys)

theorem sortByRateDesc_perm : ∀ l : List VariantResult, (sortByRateDesc l).Perm l := by
  intro l
  induction l with
  | nil => exact List.Perm.refl _
  | cons x xs ih =>
    simp only [sortByRateDesc]
    exact (insertByRate_perm x (sortByRateDesc xs)).trans (ih.cons x)

theorem sortByRateDesc_length (l : List VariantResult) :
    (sortByRateDesc l).length = l.length :=
  (sortByRateDesc_perm l).length_eq

theorem sortByRateDesc_mem {a : VariantResult} {l : List VariantResult}
    (h : a ∈ sortByRateDesc l) : a ∈ l :=
  (sortByRateDesc_perm l).mem_iff.mp h

/-- C7: checkStatisticalSignificance returns true exactly when there are at
least two variant results and, after the stable sort by descending
conversion rate, the two top entries both carry a confidence interval and
the interval of the best lies strictly above the interval of the second best
(lower bound of the best above upper bound of the second); in particular it
is false with fewer than two results. -/
theorem checkStatisticalSignificance_iff (variantResults : List VariantResult)
    (confidenceLevel : ℚ) :
    checkStatisticalSignificance variantResults confidenceLevel = true ↔
      2 ≤ variantResults.length ∧
      ∃ best second rest cb cs,
        sortByRateDesc variantResults = best :: second :: rest ∧
        best.confidence = some cb ∧ second.confidence = some cs ∧
        cs.upper < cb.lower := by
  unfold checkStatisticalSignificance
  by_cases hlen : variantResults.length < 2
  · rw [if_pos hlen]
    simp only [Bool.false_eq_true, false_iff]
    rintro ⟨h2, -⟩
    omega
  · rw [if_neg hlen]
    have hlen2 : 2 ≤ (sortByRateDesc variantResults).length := by
      rw [sortByRateDesc_length]; omega
    rcases hs : sortByRateDesc variantResults with _ | ⟨b, _ | ⟨s, rest⟩⟩
    · rw [hs] at hlen2; simp at hlen2
    · rw [hs] at hlen2; simp at hlen2
    · simp only [hs]
      cases hb : b.confidence with
      | none =>
        simp only [hb, Bool.false_eq_true, false_iff]
        rintro ⟨-, b2, s2, r2, cb2, cs2, heq, hb2, -, -⟩
        injection heq with h1 h2
        subst h1
        rw [hb] at hb2
        exact Option.noConfusion hb2
      | some cb =>
        cases hcs : s.confidence with
        | none =>
          simp only [hb, hcs, Bool.false_eq_true, false_iff]
          rintro ⟨-, b2, s2, r2, cb2, cs2, heq, -, hcs2, -⟩
          injection heq with h1 h2
          injection h2 with h2 h3
          subst h2
          rw [hcs] at hcs2
          exact Option.noConfusion hcs2
        | some cs =>
          simp only [hb, hcs, decide_eq_true_eq]
          constructor
          · intro h
            exact ⟨by omega, b, s, rest, cb, cs, rfl, hb, hcs, h⟩
          · rintro ⟨-, b2, s2, r2, cb2, cs2, heq, hb2, hcs2, hlt⟩
            injection heq with h1 h2
            injection h2 with h2 h3
            subst h1
            subst h2
            rw [hb] at hb2
            rw [hcs] at hcs2
            injection hb2 with hb2
            injection hcs2 with hcs2
            subst hb2
            subst hcs2
            exact hlt

/-- C8: when the experiment exists, completeTest computes the full result
set first and then issues exactly one write, which sets status completed and
attaches the complete non-null results subdocument in the same operation;
the resulting document is completed with results attached, so no observable
state separates the status change from the results. -/
theorem completeTest_single_atomic_write (sqrtFn : ℚ → ℚ) (now : ℤ) (testId : Nat)
    (tests : List ABTest) (assignments : List Assignment) (conversionData : List (Option String))
    (test : ABTest) (hfind : tests.find? (fun t => decide (t.id = testId)) = some test) :
    ∃ op final,
      completeTest sqrtFn now testId tests assignments conversionData = Except.ok ([op], final) ∧
      op.status = Status.completed ∧
      final = applyWrite test op ∧
      final.status = Status.completed ∧
      final.results = some op.results ∧
      op.results.completedAt = now := by
  unfold completeTest
  simp only [hfind]
  exact ⟨_, _, rfl, rfl, rfl, rfl, rfl, rfl⟩

/-- Witness for C8 at a concrete store. -/
theorem completeTest_single_atomic_write_witness :
    ([testC4].find? (fun t => decide (t.id = 4)) = some testC4) ∧
    (∃ op final,
      completeTest zeroSqrt 9 4 [testC4] [] [] = Except.ok ([op], final) ∧
      op.status = Status.completed ∧
      final = applyWrite testC4 op ∧
      final.status = Status.completed ∧
      final.results = some op.results ∧
      op.results.completedAt = 9) :=
  ⟨rfl, completeTest_single_atomic_write zeroSqrt 9 4 [testC4] [] [] testC4 rfl⟩

theorem find?_none_of_all {α : Type} (p : α → Bool) :
    ∀ l : List α, (∀ a ∈ l, p a = false) → l.find? p = none := by
  intro l
  induction l with
  | nil => intro _; rfl
  | cons a l ih =>
    intro h
    have ha := h a (List.mem_cons_self a l)
    simp only [List.find?, ha]
    exact ih fun b hb => h b (List.mem_cons_of_mem a hb)

/-- C9: for a unit with no assignment matching the named experiment,
trackConversion emits no analytics event (and, being a total function here,
raises no error): the lookup misses and the function silently does
nothing. -/
theorem trackConversion_noop_without_assignment (testName : String)
    (userId sessionId : Option String) (tests : List ABTest) (assignments : List Assignment)
    (hnone : ∀ a ∈ assignments, a.testId ∈ testIdsNamed tests testName →
      a.userId ≠ userId ∧ a.sessionId ≠ sessionId) :
    trackConversion testName userId sessionId tests assignments = [] := by
  unfold trackConversion
  have h : assignments.find? (fun a =>
      (testIdsNamed tests testName).contains a.testId &&
      (decide (a.userId = userId) || decide (a.sessionId = sessionId))) = none := by
    apply find?_none_of_all
    intro a ha
    by_cases hm : a.testId ∈ testIdsNamed tests testName
    · obtain ⟨h1, h2⟩ := hnone a ha hm
      simp [h1, h2]
    · simp [hm]
  simp only [h]

/-- Witness for C9: unit u9/s9 has no assignment for the fixture experiment
(the only stored assignment belongs to u1). -/
theorem trackConversion_noop_without_assignment_witness :
    (∀ a ∈ racedC2, a.testId ∈ testIdsNamed [testC2] testNameC2 →
      a.userId ≠ some uidC9 ∧ a.sessionId ≠ some sidC9) ∧
    trackConversion testNameC2 (some uidC9) (some sidC9) [testC2] racedC2 = [] :=
  ⟨by decide,
   trackConversion_noop_without_assignment testNameC2 (some uidC9) (some sidC9)
     [testC2] racedC2 (by decide)⟩

/-- C10: for a positive sample size with conversions bounded by the sample
size and any nonnegative square-root function, calculateConfidence returns
an interval with 0 ≤ lower ≤ rate ≤ upper ≤ 1 (the clamping by max and min);
for sample size zero it returns the falsy scalar (none here), which the
truthiness guard of checkStatisticalSignificance then treats as not
significant. -/
theorem calculateConfidence_bounds (sqrtFn : ℚ → ℚ) (hs : ∀ x, 0 ≤ sqrtFn x)
    (sampleSize conversions : Nat) (confidenceLevel : ℚ)
    (hn : 0 < sampleSize) (hc : conversions ≤ sampleSize) :
    (∃ ci, calculateConfidence sqrtFn sampleSize conversions confidenceLevel = some ci ∧
      0 ≤ ci.lower ∧ ci.lower ≤ ci.rate ∧ ci.rate ≤ ci.upper ∧ ci.upper ≤ 1) ∧
    calculateConfidence sqrtFn 0 conversions confidenceLevel = none ∧
    (∀ rs cl2, (∀ r ∈ rs, r.confidence = (none : Option ConfInterval)) →
      checkStatisticalSignificance rs cl2 = false) := by
  refine ⟨?_, rfl, ?_⟩
  · unfold calculateConfidence
    rw [if_neg (Nat.pos_iff_ne_zero.mp hn)]
    have hsPos : (0 : ℚ) < (sampleSize : ℚ) := by exact_mod_cast hn
    have hp0 : 0 ≤ confRate sampleSize conversions :=
      div_nonneg (Nat.cast_nonneg _) (Nat.cast_nonneg _)
    have hp1 : confRate sampleSize conversions ≤ 1 := by
      unfold confRate
      rw [div_le_one hsPos]
      exact_mod_cast hc
    have hz0 : 0 ≤ confZ confidenceLevel := by
      unfold confZ; split <;> norm_num
    have hm0 : 0 ≤ confMargin sqrtFn sampleSize conversions confidenceLevel :=
      mul_nonneg hz0 (hs _)
    refine ⟨_, rfl, le_max_left 0 _, max_le hp0 (by linarith), le_min hp1 (by linarith),
      min_le_left 1 _⟩
  · intro rs cl2 hall
    unfold checkStatisticalSignificance
    by_cases hlen : rs.length < 2
    · rw [if_pos hlen]
    · rw [if_neg hlen]
      rcases hsrt : sortByRateDesc rs with _ | ⟨b, _ | ⟨s, rest⟩⟩
      · simp only [hsrt]
      · simp only [hsrt]
      · have hbmem : b ∈ sortByRateDesc rs := by
          rw [hsrt]; exact List.mem_cons_self _ _
        have hb := hall b (sortByRateDesc_mem hbmem)
        simp only [hsrt, hb]

/-- Witness for C10 with the zero square root, sample size 4, one
conversion. -/
theorem calculateConfidence_bounds_witness :
    (∃ ci, calculateConfidence zeroSqrt 4 1 1 = some ci ∧
      0 ≤ ci.lower ∧ ci.lower ≤ ci.rate ∧ ci.rate ≤ ci.upper ∧ ci.upper ≤ 1) ∧
    calculateConfidence zeroSqrt 0 1 1 = none ∧
    (∀ rs cl2, (∀ r ∈ rs, r.confidence = (none : Option ConfInterval)) →
      checkStatisticalSignificance rs cl2 = false) :=
  calculateConfidence_bounds zeroSqrt (fun _ => le_refl 0) 4 1 1 (by norm_num) (by norm_num)

end ABTesting
